import Mathlib

/-!
Module glue of the Distributed Lock Manager: dlm-kernel `main.c`.

The embedding has two parts.

* `DlmMain` embeds `src/dlm-kernel/src/main.c`: the membership callback
  `cman_callback`, the module entry points `init_dlm` and `exit_dlm`, and the
  `EXPORT_SYMBOL` list. Functions defined outside the file are external
  calls; each one is recorded, with its arguments, in a call log carried
  by the state `World`, and the values they return are inputs.
* `DlmCore` models the lock-resource state machine behind the exported
  `dlm_lock` and `dlm_unlock`, whose code is not in `main.c`; it follows
  section 4.3 of the specification.
-/

namespace DlmMain

/-! ## External calls -/

/-- Functions defined in `main.c`; `kcl_add_callback` and
`kcl_remove_callback` receive the address of one of them. -/
inductive Fn where
  | cman_callback
  | init_dlm
  | exit_dlm
  deriving DecidableEq

/-- One call to a function that `main.c` uses but does not define, with the
arguments passed. -/
inductive Call where
  | lowcomms_close (nodeid : Int)
  | dlm_emergency_shutdown
  | dlm_proc_init
  | dlm_lockspace_init
  | dlm_nodes_init
  | dlm_device_init
  | dlm_memory_init
  | dlm_config_init
  | kcl_add_callback (cb : Fn)
  | printk (fmt : String) (args : List String)
  | kcl_remove_callback (cb : Fn)
  | dlm_device_exit
  | dlm_memory_exit
  | dlm_config_exit
  | dlm_proc_exit
  deriving DecidableEq

/-- State threaded through the embedded functions: the log of external
calls made so far, oldest first. `main.c` has no variables of its own. -/
structure World where
  trace : List Call
  deriving DecidableEq

/-- The state in which no external call has been made. -/
def World.empty : World := { trace := [] }

/-- Record one external call. -/
def World.call (w : World) (c : Call) : World := { trace := w.trace ++ [c] }

/-- Calls made between the state `before` and the later state `after`. -/
def callsMade (before after : World) : List Call :=
  after.trace.drop before.trace.length

/-- Values of `kcl_callback_reason` that `cman_callback` compares against.
The enumeration is declared in `cluster/cnxman.h`, which is not part of the
sources, so the two constants are parameters. -/
structure Reasons where
  DIED : Int
  LEAVING : Int
  deriving DecidableEq

/-- Values returned by the external functions `init_dlm` calls.
`dlm_device_init` is declared `int` in `main.c` (line 35) and `dlm_proc_init`
is `void` (line 37); the others are declared in headers that are not part of
the sources, so a returned value is provided for each of them. -/
structure Returns where
  dlm_lockspace_init : Int
  dlm_nodes_init : Int
  dlm_device_init : Int
  dlm_memory_init : Int
  dlm_config_init : Int
  kcl_add_callback : Int
  printk : Int
  deriving DecidableEq

/-- Compile-time constants printed by `init_dlm`: `DLM_RELEASE_NAME`,
`__DATE__` and `__TIME__`. -/
structure Build where
  DLM_RELEASE_NAME : String
  DATE : String
  TIME : String
  deriving DecidableEq

/-- C conversion `(int) arg` of a `long`: the value is kept when it fits in
32 bits and wraps modulo `2^32` otherwise. -/
def int_of_long (x : Int) : Int := (x + 2 ^ 31) % 2 ^ 32 - 2 ^ 31

/-! Each external function records its call and yields its returned value. -/

def lowcomms_close (nodeid : Int) (w : World) : World :=
  w.call (Call.lowcomms_close nodeid)

def dlm_emergency_shutdown (w : World) : World :=
  w.call Call.dlm_emergency_shutdown

def dlm_proc_init (w : World) : World := w.call Call.dlm_proc_init

def dlm_lockspace_init (r : Returns) (w : World) : Int × World :=
  (r.dlm_lockspace_init, w.call Call.dlm_lockspace_init)

def dlm_nodes_init (r : Returns) (w : World) : Int × World :=
  (r.dlm_nodes_init, w.call Call.dlm_nodes_init)

def dlm_device_init (r : Returns) (w : World) : Int × World :=
  (r.dlm_device_init, w.call Call.dlm_device_init)

def dlm_memory_init (r : Returns) (w : World) : Int × World :=
  (r.dlm_memory_init, w.call Call.dlm_memory_init)

def dlm_config_init (r : Returns) (w : World) : Int × World :=
  (r.dlm_config_init, w.call Call.dlm_config_init)

def kcl_add_callback (r : Returns) (cb : Fn) (w : World) : Int × World :=
  (r.kcl_add_callback, w.call (Call.kcl_add_callback cb))

def printk (r : Returns) (fmt : String) (args : List String) (w : World) :
    Int × World :=
  (r.printk, w.call (Call.printk fmt args))

def kcl_remove_callback (cb : Fn) (w : World) : World :=
  w.call (Call.kcl_remove_callback cb)

def dlm_device_exit (w : World) : World := w.call Call.dlm_device_exit

def dlm_memory_exit (w : World) : World := w.call Call.dlm_memory_exit

def dlm_config_exit (w : World) : World := w.call Call.dlm_config_exit

def dlm_proc_exit (w : World) : World := w.call Call.dlm_proc_exit

/-! ## The functions of `main.c` -/

/-- Embedding of `cman_callback` (lines 44-54): two independent tests of
`reason`, the first closing the connection to node `(int) arg`, the second
starting the emergency shutdown. -/
def cman_callback (k : Reasons) (reason : Int) (arg : Int) (w : World) : World :=
  let w1 := if reason = k.DIED then lowcomms_close (int_of_long arg) w else w
  let w2 := if reason = k.LEAVING then dlm_emergency_shutdown w1 else w1
  w2

/-- Format string of the banner printed by `init_dlm`. -/
def banner : String := "DLM %s (built %s %s) installed\n"

/-- Embedding of `init_dlm` (lines 56-71). Every returned value is
discarded, as in the source, and the result is the constant `0`. -/
def init_dlm (b : Build) (r : Returns) (w : World) : Int × World :=
  let w1 := dlm_proc_init w
  let (_, w2) := dlm_lockspace_init r w1
  let (_, w3) := dlm_nodes_init r w2
  let (_, w4) := dlm_device_init r w3
  let (_, w5) := dlm_memory_init r w4
  let (_, w6) := dlm_config_init r w5
  let (_, w7) := kcl_add_callback r Fn.cman_callback w6
  let (_, w8) := printk r banner [b.DLM_RELEASE_NAME, b.DATE, b.TIME] w7
  (0, w8)

/-- Embedding of `exit_dlm` (lines 73-81). -/
def exit_dlm (w : World) : World :=
  let w1 := kcl_remove_callback Fn.cman_callback w
  let w2 := dlm_device_exit w1
  let w3 := dlm_memory_exit w2
  let w4 := dlm_config_exit w3
  let w5 := dlm_proc_exit w4
  w5

/-- Symbols named by the `EXPORT_SYMBOL` lines (lines 90-97), in order. -/
def exported_symbols : List String :=
  [ "dlm_init",
    "dlm_release",
    "dlm_new_lockspace",
    "dlm_release_lockspace",
    "dlm_lock",
    "dlm_unlock",
    "dlm_debug_dump",
    "dlm_locks_dump" ]

/-! ## Vocabulary used by the statements -/

/-- The six subsystems `init_dlm` brings up. -/
inductive Subsystem where
  | proc
  | lockspace
  | nodes
  | device
  | memory
  | config
  deriving DecidableEq

/-- Subsystem brought up by a call, when the call is an initialiser. -/
def Call.initialises : Call → Option Subsystem
  | Call.dlm_proc_init => some Subsystem.proc
  | Call.dlm_lockspace_init => some Subsystem.lockspace
  | Call.dlm_nodes_init => some Subsystem.nodes
  | Call.dlm_device_init => some Subsystem.device
  | Call.dlm_memory_init => some Subsystem.memory
  | Call.dlm_config_init => some Subsystem.config
  | _ => none

/-- Subsystem torn down by a call, when the call is a teardown. -/
def Call.tearsDown : Call → Option Subsystem
  | Call.dlm_device_exit => some Subsystem.device
  | Call.dlm_memory_exit => some Subsystem.memory
  | Call.dlm_config_exit => some Subsystem.config
  | Call.dlm_proc_exit => some Subsystem.proc
  | _ => none

/-- Callback registered by a call, when the call is a registration. -/
def Call.registers : Call → Option Fn
  | Call.kcl_add_callback cb => some cb
  | _ => none

/-- Callback removed by a call, when the call is a deregistration. -/
def Call.removes : Call → Option Fn
  | Call.kcl_remove_callback cb => some cb
  | _ => none

/-- Whether a call closes a transport connection. -/
def Call.isClose : Call → Bool
  | Call.lowcomms_close _ => true
  | _ => false

/-- Whether a call is the emergency shutdown. -/
def Call.isShutdown : Call → Bool
  | Call.dlm_emergency_shutdown => true
  | _ => false

/-- The eight items of the core-exposed API that section 6 of the
specification lists: "init(), shutdown(), new_lockspace, release_lockspace,
lock, unlock, asynchronous completion callback registration, and a
diagnostic dump operation". -/
inductive CoreOp where
  | init
  | shutdown
  | new_lockspace
  | release_lockspace
  | lock
  | unlock
  | callback_registration
  | dump
  deriving DecidableEq

/-- Exported symbols that provide each operation of the core-exposed API:
`shutdown` is `dlm_release`, the dump is `dlm_debug_dump` together with
`dlm_locks_dump`, and `init`, `new_lockspace`, `release_lockspace`, `lock`
and `unlock` are their names after `dlm_`. That accounts for all eight
`EXPORT_SYMBOL` lines, so none is left for the callback registration. -/
def CoreOp.symbols : CoreOp → List String
  | CoreOp.init => ["dlm_init"]
  | CoreOp.shutdown => ["dlm_release"]
  | CoreOp.new_lockspace => ["dlm_new_lockspace"]
  | CoreOp.release_lockspace => ["dlm_release_lockspace"]
  | CoreOp.lock => ["dlm_lock"]
  | CoreOp.unlock => ["dlm_unlock"]
  | CoreOp.callback_registration => []
  | CoreOp.dump => ["dlm_debug_dump", "dlm_locks_dump"]

/-- All operations of the core-exposed API, in the order of section 6. -/
def CoreOp.all : List CoreOp :=
  [CoreOp.init, CoreOp.shutdown, CoreOp.new_lockspace, CoreOp.release_lockspace,
   CoreOp.lock, CoreOp.unlock, CoreOp.callback_registration, CoreOp.dump]

end DlmMain

namespace DlmCore

/-! ## Lock-resource state machine

`main.c` exports `dlm_lock` and `dlm_unlock` but their code is not part of
the sources. The definitions below follow section 4.3 of the specification
for a single resource mastered locally, with no recovery in progress. -/

/-- Modelled from the spec: the six lock modes of section 4.3, whose code is
not in `main.c`: "NL (null) < CR < CW < PR < PW < EX". -/
inductive Mode where
  | NL
  | CR
  | CW
  | PR
  | PW
  | EX
  deriving DecidableEq

/-- Modelled from the spec: position of a mode in the strength order
"NL (null) < CR < CW < PR < PW < EX" of section 4.3. -/
def Mode.strength : Mode → Nat
  | Mode.NL => 0
  | Mode.CR => 1
  | Mode.CW => 2
  | Mode.PR => 3
  | Mode.PW => 4
  | Mode.EX => 5

/-- Modelled from the spec: the compatibility matrix of section 4.3, absent
from `main.c`: "NL is compatible with everything; EX is compatible with
nothing but NL; CR/PR (read family) are mutually compatible but incompatible
with PW/EX (write family); CW is compatible with CR/CW but not PR/PW/EX".
The text leaves the entry PW against PW open; it is incompatible here, as in
the matrix usual for lock managers. -/
def compatible : Mode → Mode → Bool
  | Mode.NL, _ => true
  | _, Mode.NL => true
  | Mode.EX, _ => false
  | _, Mode.EX => false
  | Mode.CR, Mode.CR => true
  | Mode.CR, Mode.PR => true
  | Mode.PR, Mode.CR => true
  | Mode.PR, Mode.PR => true
  | Mode.CR, Mode.PW => false
  | Mode.PW, Mode.CR => false
  | Mode.PR, Mode.PW => false
  | Mode.PW, Mode.PR => false
  | Mode.CW, Mode.CR => true
  | Mode.CR, Mode.CW => true
  | Mode.CW, Mode.CW => true
  | Mode.CW, Mode.PR => false
  | Mode.PR, Mode.CW => false
  | Mode.CW, Mode.PW => false
  | Mode.PW, Mode.CW => false
  | Mode.PW, Mode.PW => false

/-- Modelled from the spec: the Lock Key Block of section 3, absent from
`main.c`: "requested mode, granted mode (or none), owning node, sequence
number". The state of an LKB is the queue of the resource that holds it. -/
structure LKB where
  id : Nat
  node : Nat
  rqmode : Mode
  grmode : Option Mode
  deriving DecidableEq

/-- Modelled from the spec: the resource of section 3, absent from `main.c`:
"three ordered queues (granted, converting, waiting) of LKBs", each in
arrival order, together with the next unused LKB sequence number. -/
structure RSB where
  granted : List LKB
  converting : List LKB
  waiting : List LKB
  next_id : Nat
  deriving DecidableEq

/-- Modelled from the spec: a resource on first reference, with empty
queues (section 3: "Created on first reference"). -/
def RSB.empty : RSB :=
  { granted := [], converting := [], waiting := [], next_id := 0 }

/-- Modelled from the spec: every LKB on the resource, whichever of the
three queues of section 3 holds it. -/
def RSB.all (r : RSB) : List LKB := r.granted ++ r.converting ++ r.waiting

/-- Modelled from the spec: errors of the lock calls, absent from `main.c`.
`WouldBlock` is the error of section 7 ("try-lock not immediately
grantable"). The text names no error for an unlock, or for a conversion
without the try-lock flag, that refers to an LKB which is not there;
`NoSuchLock` stands for it. -/
inductive Error where
  | WouldBlock
  | NoSuchLock
  deriving DecidableEq

/-- Modelled from the spec: arguments of `lock` in section 4.2, absent from
`main.c`: the mode, the try-lock flag ("fail immediately instead of queueing
if not grantable") and the convert-in-place flag, which carries the id of
the granted LKB to convert. -/
structure LockRequest where
  node : Nat
  mode : Mode
  try_lock : Bool
  convert : Option Nat
  deriving DecidableEq

/-- Modelled from the spec: the granted modes held by a list of LKBs. A
converting LKB still counts, section 4.3: "the lock retains its previously
granted mode until the conversion completes". -/
def heldModes (ls : List LKB) : List Mode := ls.filterMap LKB.grmode

/-- Modelled from the spec: the compatibility test of section 4.3, "its mode
is compatible with every currently granted mode on the resource", taken over
the other LKBs of the resource. -/
def compatibleWithAll (m : Mode) (others : List LKB) : Bool :=
  (heldModes others).all (fun g => compatible m g)

/-- Modelled from the spec: a queue with the LKB of the given id taken off
(section 4.2: "removes the LKB from whichever queue holds it"). -/
def without (id : Nat) (q : List LKB) : List LKB :=
  q.filter (fun k => decide (k.id ≠ id))

/-- Modelled from the spec: an LKB once its request is granted; the granted
mode becomes the requested mode. -/
def grant (k : LKB) : LKB := { k with grmode := some k.rqmode }

/-- Modelled from the spec: immediate grant of a new request, section 4.3:
"granted immediately if its mode is compatible with every currently granted
mode on the resource and the resource's waiting queue is empty ahead of it";
queued conversions are "evaluated before new waiters", so they are ahead of
a new request as well. -/
def can_grant_new (r : RSB) (m : Mode) : Bool :=
  compatibleWithAll m r.all && r.converting.isEmpty && r.waiting.isEmpty

/-- Modelled from the spec: immediate grant of a conversion of the granted
LKB `id`, section 4.3: the new mode is compatible with the granted mode of
every other LKB and no earlier conversion is queued ahead of it. -/
def can_grant_convert (r : RSB) (id : Nat) (m : Mode) : Bool :=
  compatibleWithAll m (without id r.granted ++ r.converting ++ r.waiting)
    && r.converting.isEmpty

/-- Modelled from the spec: the scan of the convert queue of section 4.3,
"in arrival order, granting every request whose mode is compatible with the
resulting aggregate, stopping at the first incompatible one". `g` is the
granted queue, `w` the wait queue; the result is the new granted queue and
what is left of the convert queue. -/
def grant_converts (g w : List LKB) : List LKB → List LKB × List LKB
  | [] => (g, [])
  | c :: cs =>
    if compatibleWithAll c.rqmode (g ++ cs ++ w) then
      grant_converts (g ++ [grant c]) w cs
    else
      (g, c :: cs)

/-- Modelled from the spec: the scan of the wait queue of section 4.3, in
arrival order, stopping at the first request that is not compatible. The
result is the new granted queue and what is left of the wait queue. -/
def grant_waiters (g : List LKB) : List LKB → List LKB × List LKB
  | [] => (g, [])
  | k :: ks =>
    if compatibleWithAll k.rqmode (g ++ ks) then
      grant_waiters (g ++ [grant k]) ks
    else
      (g, k :: ks)

/-- Modelled from the spec: the re-evaluation of section 4.3, "On release or
downgrade, the master re-scans the convert queue then the wait queue"; the
wait queue is scanned only when no conversion is left queued ("never skip an
incompatible request to grant a later compatible one"). -/
def regrant (r : RSB) : RSB :=
  let gc := grant_converts r.granted r.waiting r.converting
  if gc.2.isEmpty then
    let gw := grant_waiters gc.1 r.waiting
    { r with granted := gw.1, converting := [], waiting := gw.2 }
  else
    { r with granted := gc.1, converting := gc.2 }

/-- Modelled from the spec: whether a conversion from granted mode `old` to
`m` is a downgrade in the strength order of section 4.3. -/
def is_downgrade (old : Option Mode) (m : Mode) : Bool :=
  match old with
  | some o => decide (m.strength < o.strength)
  | none => false

/-- Modelled from the spec: `lock` of sections 4.2 and 4.3, exported by
`main.c` as `dlm_lock` but not defined there. A new request is granted at
once, refused with `WouldBlock` when it is a try-lock, or put on the wait
queue. A conversion of an LKB on the granted queue is granted at once
(followed by the re-scan when it is a downgrade), refused with `WouldBlock`
when it is a try-lock, or put on the convert queue keeping its granted mode.
A conversion that names no LKB of the granted queue cannot be granted: as a
try-lock it is refused with `WouldBlock` like every other one (section 4.3:
"a try-lock request that cannot be granted immediately fails with
`WouldBlock` and is never queued"), otherwise with `NoSuchLock`. -/
def dlm_lock (r : RSB) (req : LockRequest) : Except Error Nat × RSB :=
  match req.convert with
  | none =>
    if can_grant_new r req.mode then
      (Except.ok r.next_id,
        { r with
          granted := r.granted ++
            [{ id := r.next_id, node := req.node, rqmode := req.mode,
               grmode := some req.mode }],
          next_id := r.next_id + 1 })
    else if req.try_lock then
      (Except.error Error.WouldBlock, r)
    else
      (Except.ok r.next_id,
        { r with
          waiting := r.waiting ++
            [{ id := r.next_id, node := req.node, rqmode := req.mode,
               grmode := none }],
          next_id := r.next_id + 1 })
  | some id =>
    match r.granted.find? (fun k => decide (k.id = id)) with
    | none =>
      if req.try_lock then
        (Except.error Error.WouldBlock, r)
      else
        (Except.error Error.NoSuchLock, r)
    | some k =>
      if can_grant_convert r id req.mode then
        let r1 : RSB :=
          { r with granted := without id r.granted ++ [grant { k with rqmode := req.mode }] }
        (Except.ok id, if is_downgrade k.grmode req.mode then regrant r1 else r1)
      else if req.try_lock then
        (Except.error Error.WouldBlock, r)
      else
        (Except.ok id,
          { r with
            granted := without id r.granted,
            converting := r.converting ++ [{ k with rqmode := req.mode }] })

/-- Modelled from the spec: `unlock` of section 4.2, exported by `main.c` as
`dlm_unlock` but not defined there: "removes the LKB from whichever queue
holds it; triggers re-evaluation of the resource's queues". -/
def dlm_unlock (r : RSB) (id : Nat) : Except Error Unit × RSB :=
  if r.all.any (fun k => decide (k.id = id)) then
    (Except.ok (),
      regrant
        { r with
          granted := without id r.granted,
          converting := without id r.converting,
          waiting := without id r.waiting })
  else
    (Except.error Error.NoSuchLock, r)

/-- Modelled from the spec: one call on a resource: a lock request (new or
conversion) or an unlock. -/
inductive Op where
  | lock (req : LockRequest)
  | unlock (id : Nat)
  deriving DecidableEq

/-- Modelled from the spec: the resource after one call. -/
def step (r : RSB) : Op → RSB
  | Op.lock req => (dlm_lock r req).2
  | Op.unlock id => (dlm_unlock r id).2

/-- Modelled from the spec: the resource reached from the empty one by a
sequence of calls. -/
def run (ops : List Op) : RSB := ops.foldl step RSB.empty

/-- Modelled from the spec: whether the granted modes of two LKBs are
compatible under the matrix; an LKB with no granted mode holds nothing. -/
def LKB.compatibleWith (a b : LKB) : Bool :=
  match a.grmode, b.grmode with
  | some x, some y => compatible x y
  | _, _ => true

/-- Modelled from the spec: the invariant of section 8 on a list of LKBs,
"No two LKBs on the same resource ever hold simultaneously granted modes
that are pairwise incompatible": every two entries of the list hold
compatible granted modes. -/
def Consistent (ls : List LKB) : Prop :=
  ls.Pairwise (fun a b => a.compatibleWith b = true)

/-- Modelled from the spec: sequence numbers identify the LKBs of a resource
(section 3): no two queue entries share an id, and every id in use is below
the next unused one. -/
def WellFormed (r : RSB) : Prop :=
  (r.all.map LKB.id).Nodup ∧ ∀ i ∈ r.all.map LKB.id, i < r.next_id

/-- Modelled from the spec: whether a lock request can be granted
immediately on the resource (section 4.3). A conversion can be granted only
to an LKB on the granted queue: an LKB on the convert queue has its earlier
conversion queued ahead, an LKB on the wait queue holds no granted mode, and
an id that is not on the resource names no lock. -/
def grantable_now (r : RSB) (req : LockRequest) : Bool :=
  match req.convert with
  | none => can_grant_new r req.mode
  | some id =>
    (r.granted.find? (fun k => decide (k.id = id))).isSome
      && can_grant_convert r id req.mode

end DlmCore

namespace DlmMain

theorem callsMade_append (w : World) (l : List Call) :
    callsMade w { trace := w.trace ++ l } = l := by
  simp [callsMade]

theorem cman_callback_trace (k : Reasons) (reason arg : Int) (w : World) :
    cman_callback k reason arg w =
      { trace := w.trace ++
          ((if reason = k.DIED then [Call.lowcomms_close (int_of_long arg)] else []) ++
           (if reason = k.LEAVING then [Call.dlm_emergency_shutdown] else [])) } := by
  unfold cman_callback lowcomms_close dlm_emergency_shutdown World.call
  dsimp only
  split_ifs <;> simp

theorem init_dlm_eq (b : Build) (r : Returns) (w : World) :
    init_dlm b r w =
      (0, { trace := w.trace ++
        [Call.dlm_proc_init, Call.dlm_lockspace_init, Call.dlm_nodes_init,
         Call.dlm_device_init, Call.dlm_memory_init, Call.dlm_config_init,
         Call.kcl_add_callback Fn.cman_callback,
         Call.printk banner [b.DLM_RELEASE_NAME, b.DATE, b.TIME]] }) := by
  simp [init_dlm, dlm_proc_init, dlm_lockspace_init, dlm_nodes_init, dlm_device_init,
    dlm_memory_init, dlm_config_init, kcl_add_callback, printk, World.call]

theorem exit_dlm_eq (w : World) :
    exit_dlm w =
      { trace := w.trace ++
        [Call.kcl_remove_callback Fn.cman_callback, Call.dlm_device_exit,
         Call.dlm_memory_exit, Call.dlm_config_exit, Call.dlm_proc_exit] } := by
  simp [exit_dlm, kcl_remove_callback, dlm_device_exit, dlm_memory_exit, dlm_config_exit,
    dlm_proc_exit, World.call]

theorem int_of_long_of_fits (x : Int) (h1 : -2 ^ 31 ≤ x) (h2 : x < 2 ^ 31) :
    int_of_long x = x := by
  unfold int_of_long
  omega

/-- C1: on a LEAVING event `cman_callback` only appends to the call log, and
among the calls it makes exactly one is `dlm_emergency_shutdown`, whatever
`arg` and the earlier log are; when `DIED` and `LEAVING` are distinct that
call is the only one, so no connection is closed. -/
theorem cman_callback_leaving (k : Reasons) (arg : Int) (w : World) :
    (cman_callback k k.LEAVING arg w).trace
        = w.trace ++ callsMade w (cman_callback k k.LEAVING arg w) ∧
    (callsMade w (cman_callback k k.LEAVING arg w)).filter Call.isShutdown
        = [Call.dlm_emergency_shutdown] ∧
    (k.DIED ≠ k.LEAVING →
      callsMade w (cman_callback k k.LEAVING arg w) = [Call.dlm_emergency_shutdown] ∧
      (callsMade w (cman_callback k k.LEAVING arg w)).filter Call.isClose = []) := by
  rw [cman_callback_trace, callsMade_append]
  refine ⟨rfl, ?_, ?_⟩
  · by_cases h : k.LEAVING = k.DIED <;> simp [h, Call.isShutdown]
  · intro h
    have h2 : ¬ k.LEAVING = k.DIED := fun e => h e.symm
    simp [h2, Call.isClose]

theorem cman_callback_leaving_witness :
    (1 : Int) ≠ 2 ∧
    callsMade World.empty (cman_callback ⟨1, 2⟩ 2 7 World.empty)
      = [Call.dlm_emergency_shutdown] :=
  ⟨by decide, ((cman_callback_leaving ⟨1, 2⟩ 7 World.empty).2.2 (by decide)).1⟩

/-- C2: on a DIED event `cman_callback` only appends to the call log, and
among the calls it makes exactly one is `lowcomms_close`, with node id
`(int) arg`: that is `arg` itself when `arg` fits in a signed 32-bit int, and
in every case the value in the 32-bit range congruent to `arg` modulo `2^32`;
when `DIED` and `LEAVING` are distinct that call is the only one, so
`dlm_emergency_shutdown` is not invoked. -/
theorem cman_callback_died (k : Reasons) (arg : Int) (w : World) :
    (cman_callback k k.DIED arg w).trace
        = w.trace ++ callsMade w (cman_callback k k.DIED arg w) ∧
    (callsMade w (cman_callback k k.DIED arg w)).filter Call.isClose
        = [Call.lowcomms_close (int_of_long arg)] ∧
    (-2 ^ 31 ≤ arg → arg < 2 ^ 31 →
      (callsMade w (cman_callback k k.DIED arg w)).filter Call.isClose
        = [Call.lowcomms_close arg]) ∧
    (-2 ^ 31 ≤ int_of_long arg ∧ int_of_long arg < 2 ^ 31 ∧
      (int_of_long arg - arg) % 2 ^ 32 = 0) ∧
    (k.DIED ≠ k.LEAVING →
      callsMade w (cman_callback k k.DIED arg w) = [Call.lowcomms_close (int_of_long arg)] ∧
      (callsMade w (cman_callback k k.DIED arg w)).filter Call.isShutdown = []) := by
  rw [cman_callback_trace, callsMade_append]
  have hf : (([Call.lowcomms_close (int_of_long arg)] ++
      (if k.DIED = k.LEAVING then [Call.dlm_emergency_shutdown] else [])).filter Call.isClose)
      = [Call.lowcomms_close (int_of_long arg)] := by
    by_cases h : k.DIED = k.LEAVING <;> simp [h, Call.isClose]
  refine ⟨rfl, ?_, ?_, ?_, ?_⟩
  · simpa using hf
  · intro h1 h2
    rw [int_of_long_of_fits arg h1 h2] at hf ⊢
    simpa using hf
  · unfold int_of_long
    omega
  · intro h
    simp [h, Call.isShutdown]

theorem cman_callback_died_witness :
    (1 : Int) ≠ 2 ∧ (-2 ^ 31 ≤ (3 : Int) ∧ (3 : Int) < 2 ^ 31) ∧
    callsMade World.empty (cman_callback ⟨1, 2⟩ 1 3 World.empty) = [Call.lowcomms_close 3] ∧
    (callsMade World.empty (cman_callback ⟨1, 2⟩ 1 3 World.empty)).filter Call.isClose
      = [Call.lowcomms_close 3] :=
  ⟨by decide, by decide,
    ((cman_callback_died ⟨1, 2⟩ 3 World.empty).2.2.2.2 (by decide)).1,
    (cman_callback_died ⟨1, 2⟩ 3 World.empty).2.2.1 (by decide) (by decide)⟩

/-- C7: for a reason that is neither `DIED` nor `LEAVING`, `cman_callback`
returns the state it was given: it makes no external call, so neither
`lowcomms_close` nor `dlm_emergency_shutdown` is invoked. -/
theorem cman_callback_other (k : Reasons) (reason arg : Int) (w : World)
    (hd : reason ≠ k.DIED) (hl : reason ≠ k.LEAVING) :
    cman_callback k reason arg w = w ∧
    callsMade w (cman_callback k reason arg w) = [] := by
  have h : cman_callback k reason arg w = w := by
    rw [cman_callback_trace]
    simp [hd, hl]
  rw [h]
  exact ⟨rfl, by simp [callsMade]⟩

theorem cman_callback_other_witness :
    (0 : Int) ≠ 1 ∧ (0 : Int) ≠ 2 ∧
    cman_callback ⟨1, 2⟩ 0 9 ⟨[Call.dlm_proc_init]⟩ = ⟨[Call.dlm_proc_init]⟩ :=
  ⟨by decide, by decide,
    (cman_callback_other ⟨1, 2⟩ 0 9 ⟨[Call.dlm_proc_init]⟩ (by decide) (by decide)).1⟩

/-- C3 as stated fails: the asynchronous completion callback registration
is an operation of the core-exposed API that section 6 lists, and no symbol
of the export list of `main.c` provides it. -/
theorem callback_registration_not_exported :
    CoreOp.callback_registration ∈ CoreOp.all ∧
    CoreOp.callback_registration.symbols = [] ∧
    ¬ (∀ op ∈ CoreOp.all, ∃ s ∈ op.symbols, s ∈ exported_symbols) := by
  refine ⟨by decide, rfl, ?_⟩
  intro h
  obtain ⟨s, hs, _⟩ := h CoreOp.callback_registration (by decide)
  simp [CoreOp.symbols] at hs

/-- C3, amended: each operation of the core-exposed API other than the
asynchronous completion callback registration (init, shutdown,
new_lockspace, release_lockspace, lock, unlock and the diagnostic dump) has
its symbols in the export list of `main.c`; the callback registration is the
only operation with no symbol; and the export list consists of exactly those
eight symbols, each once. -/
theorem exported_symbols_cover_api :
    (∀ op : CoreOp, op ∈ CoreOp.all ∧
      op.symbols.isEmpty = decide (op = CoreOp.callback_registration) ∧
      op.symbols.all (fun s => exported_symbols.contains s) = true) ∧
    CoreOp.init.symbols = ["dlm_init"] ∧
    CoreOp.shutdown.symbols = ["dlm_release"] ∧
    CoreOp.new_lockspace.symbols = ["dlm_new_lockspace"] ∧
    CoreOp.release_lockspace.symbols = ["dlm_release_lockspace"] ∧
    CoreOp.lock.symbols = ["dlm_lock"] ∧
    CoreOp.unlock.symbols = ["dlm_unlock"] ∧
    CoreOp.dump.symbols = ["dlm_debug_dump", "dlm_locks_dump"] ∧
    exported_symbols = CoreOp.all.flatMap CoreOp.symbols ∧
    exported_symbols
      = ["dlm_init", "dlm_release", "dlm_new_lockspace", "dlm_release_lockspace",
         "dlm_lock", "dlm_unlock", "dlm_debug_dump", "dlm_locks_dump"] ∧
    exported_symbols.length = 8 ∧
    exported_symbols.Nodup := by
  refine ⟨?_, rfl, rfl, rfl, rfl, rfl, rfl, rfl, rfl, rfl, rfl, by decide⟩
  intro op
  cases op <;> exact ⟨by decide, rfl, by decide⟩

/-- C6 as stated fails: on the empty log, the calls `init_dlm` makes are not
just the six initialisers followed by `kcl_add_callback(cman_callback)`. -/
theorem init_dlm_calls_not_seven :
    callsMade World.empty
        (init_dlm ⟨"1.0", "Jan  1 2005", "00:00:00"⟩ ⟨0, 0, 0, 0, 0, 0, 0⟩ World.empty).2
      ≠ [Call.dlm_proc_init, Call.dlm_lockspace_init, Call.dlm_nodes_init,
         Call.dlm_device_init, Call.dlm_memory_init, Call.dlm_config_init,
         Call.kcl_add_callback Fn.cman_callback] := by
  rw [init_dlm_eq]
  simp [callsMade, World.empty]

/-- C6, amended: `init_dlm` only appends to the call log; the calls it makes
are the six initialisers `dlm_proc_init`, `dlm_lockspace_init`,
`dlm_nodes_init`, `dlm_device_init`, `dlm_memory_init`, `dlm_config_init`,
then `kcl_add_callback(cman_callback)`, then one `printk` of the banner, in
that order; the calls made before the callback is registered are exactly the
six initialisers. -/
theorem init_dlm_calls (b : Build) (r : Returns) (w : World) :
    (init_dlm b r w).2.trace = w.trace ++ callsMade w (init_dlm b r w).2 ∧
    callsMade w (init_dlm b r w).2
      = [Call.dlm_proc_init, Call.dlm_lockspace_init, Call.dlm_nodes_init,
         Call.dlm_device_init, Call.dlm_memory_init, Call.dlm_config_init,
         Call.kcl_add_callback Fn.cman_callback,
         Call.printk banner [b.DLM_RELEASE_NAME, b.DATE, b.TIME]] ∧
    (callsMade w (init_dlm b r w).2).takeWhile (fun c => c.registers.isNone)
      = [Call.dlm_proc_init, Call.dlm_lockspace_init, Call.dlm_nodes_init,
         Call.dlm_device_init, Call.dlm_memory_init, Call.dlm_config_init] := by
  rw [init_dlm_eq]
  dsimp only
  rw [callsMade_append]
  exact ⟨rfl, rfl, rfl⟩

/-- C8: `init_dlm` returns 0 and reaches the same state whatever values the
initialisers return (in particular a non-zero `dlm_device_init`): the calls
from the fourth on are `dlm_device_init`, `dlm_memory_init`,
`dlm_config_init`, the registration of `cman_callback` and the banner. -/
theorem init_dlm_returns_zero (b : Build) (r r1 : Returns) (w : World) :
    (init_dlm b r w).1 = 0 ∧
    (init_dlm b r w).2 = (init_dlm b r1 w).2 ∧
    (callsMade w (init_dlm b r w).2).drop 3
      = [Call.dlm_device_init, Call.dlm_memory_init, Call.dlm_config_init,
         Call.kcl_add_callback Fn.cman_callback,
         Call.printk banner [b.DLM_RELEASE_NAME, b.DATE, b.TIME]] := by
  rw [init_dlm_eq, init_dlm_eq]
  dsimp only
  rw [callsMade_append]
  exact ⟨rfl, rfl, rfl⟩

/-- C9: `exit_dlm` only appends to the call log; its first call is
`kcl_remove_callback(cman_callback)`, followed by `dlm_device_exit`,
`dlm_memory_exit`, `dlm_config_exit` and `dlm_proc_exit`, and the callback
it removes is the one `init_dlm` registers. -/
theorem exit_dlm_removes_callback_first (b : Build) (r : Returns) (w0 w : World) :
    (exit_dlm w).trace = w.trace ++ callsMade w (exit_dlm w) ∧
    callsMade w (exit_dlm w)
      = [Call.kcl_remove_callback Fn.cman_callback, Call.dlm_device_exit,
         Call.dlm_memory_exit, Call.dlm_config_exit, Call.dlm_proc_exit] ∧
    (callsMade w (exit_dlm w)).head? = some (Call.kcl_remove_callback Fn.cman_callback) ∧
    (callsMade w (exit_dlm w)).filterMap Call.removes = [Fn.cman_callback] ∧
    (callsMade w0 (init_dlm b r w0).2).filterMap Call.registers = [Fn.cman_callback] := by
  rw [exit_dlm_eq, init_dlm_eq]
  dsimp only
  rw [callsMade_append, callsMade_append]
  exact ⟨rfl, rfl, rfl, rfl, rfl⟩

/-- C10: `init_dlm` initialises six subsystems (proc, lockspace, nodes,
device, memory, config) while the teardown calls of `exit_dlm` are those of
device, memory, config and proc, in that order; of the five calls `exit_dlm`
makes none tears down the lockspace or the nodes subsystem. -/
theorem exit_dlm_teardown (b : Build) (r : Returns) (w0 w : World) :
    (callsMade w0 (init_dlm b r w0).2).filterMap Call.initialises
      = [Subsystem.proc, Subsystem.lockspace, Subsystem.nodes, Subsystem.device,
         Subsystem.memory, Subsystem.config] ∧
    (callsMade w (exit_dlm w)).filterMap Call.tearsDown
      = [Subsystem.device, Subsystem.memory, Subsystem.config, Subsystem.proc] ∧
    (callsMade w (exit_dlm w)).length = 5 ∧
    ((callsMade w (exit_dlm w)).filterMap Call.tearsDown).contains Subsystem.lockspace
      = false ∧
    ((callsMade w (exit_dlm w)).filterMap Call.tearsDown).contains Subsystem.nodes
      = false := by
  rw [exit_dlm_eq, init_dlm_eq]
  dsimp only
  rw [callsMade_append, callsMade_append]
  exact ⟨rfl, rfl, rfl, rfl, rfl⟩

end DlmMain

namespace DlmCore

theorem compatible_symm (a b : Mode) : compatible a b = compatible b a := by
  cases a <;> cases b <;> rfl

theorem compatibleWith_symm (a b : LKB) :
    a.compatibleWith b = b.compatibleWith a := by
  unfold LKB.compatibleWith
  cases a.grmode <;> cases b.grmode <;> simp [compatible_symm]

theorem compatibleWith_of_none (a b : LKB) (h : a.grmode = none) :
    a.compatibleWith b = true := by
  unfold LKB.compatibleWith
  rw [h]

theorem compatibleWith_of_all (a : LKB) (m : Mode) (others : List LKB)
    (ha : a.grmode = some m) (h : compatibleWithAll m others = true) :
    ∀ b ∈ others, a.compatibleWith b = true := by
  intro b hb
  unfold LKB.compatibleWith
  rw [ha]
  cases hg : b.grmode with
  | none => rfl
  | some y =>
    simp only [compatibleWithAll, heldModes, List.all_eq_true, List.mem_filterMap] at h
    exact h y ⟨b, hb, hg⟩

theorem consistent_perm {l₁ l₂ : List LKB} (hp : l₁.Perm l₂) (h : Consistent l₁) :
    Consistent l₂ := by
  unfold Consistent at *
  refine (hp.pairwise_iff ?_).mp h
  intro x y hxy
  rw [compatibleWith_symm]
  exact hxy

theorem consistent_sublist {l₁ l₂ : List LKB} (hs : l₁.Sublist l₂) (h : Consistent l₂) :
    Consistent l₁ :=
  List.Pairwise.sublist hs h

theorem consistent_cons {a : LKB} {l : List LKB}
    (ha : ∀ b ∈ l, a.compatibleWith b = true) (h : Consistent l) :
    Consistent (a :: l) :=
  List.Pairwise.cons ha h

theorem grant_converts_consistent (w : List LKB) :
    ∀ (cs g : List LKB), Consistent (g ++ cs ++ w) →
      Consistent ((grant_converts g w cs).1 ++ (grant_converts g w cs).2 ++ w) := by
  intro cs
  induction cs with
  | nil => intro g h; simpa [grant_converts] using h
  | cons c cs ih =>
    intro g h
    unfold grant_converts
    split
    · rename_i hc
      apply ih
      have hp : (g ++ c :: cs ++ w).Perm (c :: (g ++ cs ++ w)) := by
        simp only [List.append_assoc, List.cons_append]
        exact List.perm_middle
      have hrest : Consistent (g ++ cs ++ w) := (List.pairwise_cons.mp (consistent_perm hp h)).2
      have hnew : Consistent (grant c :: (g ++ cs ++ w)) :=
        consistent_cons (compatibleWith_of_all (grant c) c.rqmode _ rfl hc) hrest
      refine consistent_perm ?_ hnew
      have : (g ++ grant c :: (cs ++ w)).Perm (grant c :: (g ++ (cs ++ w))) := List.perm_middle
      simpa [List.append_assoc] using this.symm
    · exact h

theorem grant_waiters_consistent :
    ∀ (ks g : List LKB), Consistent (g ++ ks) →
      Consistent ((grant_waiters g ks).1 ++ (grant_waiters g ks).2) := by
  intro ks
  induction ks with
  | nil => intro g h; simpa [grant_waiters] using h
  | cons k ks ih =>
    intro g h
    unfold grant_waiters
    split
    · rename_i hc
      apply ih
      have hp : (g ++ k :: ks).Perm (k :: (g ++ ks)) := List.perm_middle
      have hrest : Consistent (g ++ ks) := (List.pairwise_cons.mp (consistent_perm hp h)).2
      have hnew : Consistent (grant k :: (g ++ ks)) :=
        consistent_cons (compatibleWith_of_all (grant k) k.rqmode _ rfl hc) hrest
      refine consistent_perm ?_ hnew
      have : (g ++ grant k :: ks).Perm (grant k :: (g ++ ks)) := List.perm_middle
      simpa [List.append_assoc] using this.symm
    · exact h

theorem regrant_consistent (r : RSB) (h : Consistent r.all) :
    Consistent (regrant r).all := by
  have h1 := grant_converts_consistent r.waiting r.converting r.granted h
  unfold regrant
  simp only []
  split
  · rename_i he
    have he2 : (grant_converts r.granted r.waiting r.converting).2 = [] := by
      simpa using he
    rw [he2] at h1
    have h2 := grant_waiters_consistent r.waiting
      (grant_converts r.granted r.waiting r.converting).1 (by simpa using h1)
    simpa [RSB.all] using h2
  · simpa [RSB.all] using h1

theorem without_sublist (id : Nat) (q : List LKB) : (without id q).Sublist q :=
  List.filter_sublist q

theorem mem_without {id : Nat} {q : List LKB} {b : LKB} :
    b ∈ without id q ↔ b ∈ q ∧ b.id ≠ id := by
  simp [without]

theorem find_granted {q : List LKB} {id : Nat} {k : LKB}
    (h : q.find? (fun k => decide (k.id = id)) = some k) : k ∈ q ∧ k.id = id := by
  refine ⟨List.mem_of_find?_eq_some h, ?_⟩
  simpa using List.find?_some h

theorem dlm_unlock_consistent (r : RSB) (id : Nat) (h : Consistent r.all) :
    Consistent (dlm_unlock r id).2.all := by
  unfold dlm_unlock
  split
  · apply regrant_consistent
    refine consistent_sublist ?_ h
    exact ((without_sublist id _).append (without_sublist id _)).append
      (without_sublist id _)
  · exact h

/-- The LKBs left beside a granted LKB `k` are consistent with any LKB that
holds the granted mode of `k`. -/
theorem consistent_beside {r : RSB} {id : Nat} {k k1 : LKB}
    (h : Consistent r.all) (hk : k ∈ r.granted) (hid : k.id = id)
    (hg : k1.grmode = k.grmode) :
    ∀ b ∈ without id r.granted ++ r.converting ++ r.waiting,
      k1.compatibleWith b = true := by
  have hsame : ∀ b, k1.compatibleWith b = k.compatibleWith b := by
    intro b; unfold LKB.compatibleWith; rw [hg]
  intro b hb
  rw [hsame]
  have hsymm : Symmetric (fun a b : LKB => a.compatibleWith b = true) := by
    intro x y hxy
    rw [compatibleWith_symm]
    exact hxy
  unfold Consistent RSB.all at h
  rw [List.pairwise_append] at h
  obtain ⟨hgc, _, hcross2⟩ := h
  rw [List.pairwise_append] at hgc
  obtain ⟨hgr, _, hcross1⟩ := hgc
  simp only [List.mem_append, mem_without] at hb
  rcases hb with (⟨h1, h2⟩ | h1) | h1
  · have hne : k ≠ b := by
      intro e
      apply h2
      rw [← e, hid]
    exact hgr.forall hsymm hk h1 hne
  · exact hcross1 k hk b h1
  · exact hcross2 k (List.mem_append_left _ hk) b h1

theorem dlm_lock_consistent (r : RSB) (req : LockRequest) (h : Consistent r.all) :
    Consistent (dlm_lock r req).2.all := by
  unfold dlm_lock
  split
  · -- a new request
    split
    · rename_i hc
      have hc1 : compatibleWithAll req.mode r.all = true := by
        simp only [can_grant_new, Bool.and_eq_true] at hc
        exact hc.1.1
      have hnew := consistent_cons
        (compatibleWith_of_all
          { id := r.next_id, node := req.node, rqmode := req.mode, grmode := some req.mode }
          req.mode r.all rfl hc1) h
      refine consistent_perm ?_ hnew
      simp only [RSB.all, List.append_assoc]
      exact List.perm_middle.symm
    · split
      · exact h
      · have hnew := @consistent_cons _ r.all
          (fun b _ => compatibleWith_of_none
            { id := r.next_id, node := req.node, rqmode := req.mode, grmode := none }
            b rfl) h
        refine consistent_perm ?_ hnew
        simp only [RSB.all, List.append_assoc]
        have hp : (r.granted ++ (r.converting ++ r.waiting) ++
            (LKB.mk r.next_id req.node req.mode none) :: []).Perm
            ((LKB.mk r.next_id req.node req.mode none) ::
              (r.granted ++ (r.converting ++ r.waiting) ++ [])) := List.perm_middle
        simpa [List.append_assoc] using hp.symm
  · -- a conversion
    rename_i id _
    split
    · split <;> exact h
    · rename_i k hf
      obtain ⟨hk, hid⟩ := find_granted hf
      have hrest : Consistent (without id r.granted ++ r.converting ++ r.waiting) :=
        consistent_sublist (((without_sublist id _).append (List.Sublist.refl _)).append
          (List.Sublist.refl _)) h
      split
      · rename_i hc
        have hc1 : compatibleWithAll req.mode
            (without id r.granted ++ r.converting ++ r.waiting) = true := by
          simp only [can_grant_convert, Bool.and_eq_true] at hc
          exact hc.1
        have hnew := consistent_cons
          (compatibleWith_of_all (grant { k with rqmode := req.mode }) req.mode _ rfl hc1)
          hrest
        have hr1 : Consistent (without id r.granted ++
            [grant (LKB.mk k.id k.node req.mode k.grmode)] ++ r.converting ++ r.waiting) := by
          refine consistent_perm ?_ hnew
          simp only [List.append_assoc]
          exact List.perm_middle.symm
        dsimp only
        split
        · exact regrant_consistent _ hr1
        · exact hr1
      · split
        · exact h
        · have hnew := consistent_cons
            (@consistent_beside r id k (LKB.mk k.id k.node req.mode k.grmode) h hk hid rfl)
            hrest
          refine consistent_perm ?_ hnew
          simp only [RSB.all, List.append_assoc]
          have hp : ((without id r.granted ++ r.converting) ++
              (LKB.mk k.id k.node req.mode k.grmode) :: r.waiting).Perm
              ((LKB.mk k.id k.node req.mode k.grmode) ::
                ((without id r.granted ++ r.converting) ++ r.waiting)) := List.perm_middle
          simpa [List.append_assoc] using hp.symm

theorem step_consistent (r : RSB) (op : Op) (h : Consistent r.all) :
    Consistent (step r op).all := by
  cases op with
  | lock req => exact dlm_lock_consistent r req h
  | unlock id => exact dlm_unlock_consistent r id h

theorem foldl_step_consistent (ops : List Op) :
    ∀ r : RSB, Consistent r.all → Consistent (ops.foldl step r).all := by
  induction ops with
  | nil => intro r h; exact h
  | cons op ops ih => intro r h; exact ih _ (step_consistent r op h)

theorem grant_converts_ids (w : List LKB) :
    ∀ (cs g : List LKB),
      ((grant_converts g w cs).1 ++ (grant_converts g w cs).2).map LKB.id
        = (g ++ cs).map LKB.id := by
  intro cs
  induction cs with
  | nil => intro g; simp [grant_converts]
  | cons c cs ih =>
    intro g
    unfold grant_converts
    split
    · rw [ih]
      simp [grant]
    · rfl

theorem grant_waiters_ids :
    ∀ (ks g : List LKB),
      ((grant_waiters g ks).1 ++ (grant_waiters g ks).2).map LKB.id
        = (g ++ ks).map LKB.id := by
  intro ks
  induction ks with
  | nil => intro g; simp [grant_waiters]
  | cons k ks ih =>
    intro g
    unfold grant_waiters
    split
    · rw [ih]
      simp [grant]
    · rfl

theorem regrant_ids (r : RSB) :
    (regrant r).all.map LKB.id = r.all.map LKB.id := by
  have h1 := grant_converts_ids r.waiting r.converting r.granted
  unfold regrant
  simp only []
  split
  · rename_i he
    have he2 : (grant_converts r.granted r.waiting r.converting).2 = [] := by
      simpa using he
    rw [he2] at h1
    have h2 := grant_waiters_ids r.waiting
      (grant_converts r.granted r.waiting r.converting).1
    simp only [List.append_nil, List.map_append] at h1 h2
    simp only [RSB.all, List.append_nil, List.map_append, List.append_assoc]
    rw [h2, h1, List.append_assoc]
  · simp only [List.map_append] at h1
    simp only [RSB.all, List.map_append, List.append_assoc]
    rw [← List.append_assoc, h1, List.append_assoc]

theorem regrant_next_id (r : RSB) : (regrant r).next_id = r.next_id := by
  unfold regrant
  simp only []
  split <;> rfl

theorem regrant_wellFormed (r : RSB) (h : WellFormed r) : WellFormed (regrant r) := by
  unfold WellFormed at *
  rw [regrant_ids, regrant_next_id]
  exact h

theorem perm_cons_without {q : List LKB} {id : Nat} {k : LKB}
    (hn : (q.map LKB.id).Nodup) (hk : k ∈ q) (hid : k.id = id) :
    q.Perm (k :: without id q) := by
  induction q with
  | nil => cases hk
  | cons a t ih =>
    rw [List.map_cons, List.nodup_cons] at hn
    obtain ⟨ha, ht⟩ := hn
    by_cases e : a.id = id
    · have hka : k = a := by
        rcases List.mem_cons.mp hk with h | h
        · exact h
        · exfalso
          apply ha
          rw [e, ← hid]
          exact List.mem_map_of_mem _ h
      have hw : without id (a :: t) = t := by
        unfold without
        rw [List.filter_cons_of_neg (by simpa using e)]
        apply List.filter_eq_self.mpr
        intro x hx
        have : x.id ≠ id := by
          intro hxid
          apply ha
          rw [e, ← hxid]
          exact List.mem_map_of_mem _ hx
        simpa using this
      rw [hw, hka]
    · have hkt : k ∈ t := by
        rcases List.mem_cons.mp hk with h | h
        · exfalso; apply e; rw [← h]; exact hid
        · exact h
      have hw : without id (a :: t) = a :: without id t := by
        unfold without
        rw [List.filter_cons_of_pos (by simpa using e)]
      rw [hw]
      exact ((ih ht hkt).cons a).trans (List.Perm.swap k a _)

theorem dlm_unlock_wellFormed (r : RSB) (id : Nat) (h : WellFormed r) :
    WellFormed (dlm_unlock r id).2 := by
  unfold dlm_unlock
  split
  · apply regrant_wellFormed
    have hs : (without id r.granted ++ without id r.converting ++ without id r.waiting).Sublist
        r.all :=
      ((without_sublist id _).append (without_sublist id _)).append (without_sublist id _)
    have hm := hs.map LKB.id
    exact ⟨h.1.sublist hm, fun i hi => h.2 i (hm.subset hi)⟩
  · exact h

theorem wellFormed_of_perm_ids {r r1 : RSB} (h : WellFormed r)
    (hn : r1.next_id = r.next_id)
    (hp : (r1.all.map LKB.id).Perm (r.all.map LKB.id)) : WellFormed r1 := by
  refine ⟨hp.nodup_iff.mpr h.1, ?_⟩
  intro i hi
  rw [hn]
  exact h.2 i (hp.subset hi)

theorem wellFormed_of_fresh {r r1 : RSB} (h : WellFormed r)
    (hn : r1.next_id = r.next_id + 1)
    (hp : (r1.all.map LKB.id).Perm (r.next_id :: r.all.map LKB.id)) : WellFormed r1 := by
  have hfresh : r.next_id ∉ r.all.map LKB.id := fun hm => Nat.lt_irrefl _ (h.2 _ hm)
  refine ⟨hp.nodup_iff.mpr (List.nodup_cons.mpr ⟨hfresh, h.1⟩), ?_⟩
  intro i hi
  rw [hn]
  rcases List.mem_cons.mp (hp.subset hi) with e | hm
  · omega
  · exact Nat.lt_succ_of_lt (h.2 i hm)

theorem dlm_lock_wellFormed (r : RSB) (req : LockRequest) (h : WellFormed r) :
    WellFormed (dlm_lock r req).2 := by
  unfold dlm_lock
  split
  · split
    · refine wellFormed_of_fresh h rfl ?_
      simp only [RSB.all, List.append_assoc, List.map_append, List.map_cons, List.map_nil]
      exact List.perm_middle
    · split
      · exact h
      · refine wellFormed_of_fresh h rfl ?_
        rw [List.perm_iff_count]
        intro a
        simp only [RSB.all, List.map_append, List.map_cons, List.map_nil, List.count_append,
          List.count_cons, List.count_nil]
        omega
  · rename_i id _
    split
    · split <;> exact h
    · rename_i k hf
      obtain ⟨hk, hid⟩ := find_granted hf
      have hng : (r.granted.map LKB.id).Nodup := by
        have hs : r.granted.Sublist r.all := by
          unfold RSB.all
          rw [List.append_assoc]
          exact List.sublist_append_left _ _
        exact h.1.sublist (hs.map LKB.id)
      have hpg := (perm_cons_without hng hk hid).map LKB.id
      rw [List.perm_iff_count] at hpg
      split
      · have hr1 : WellFormed (RSB.mk
            (without id r.granted ++ [grant (LKB.mk k.id k.node req.mode k.grmode)])
            r.converting r.waiting r.next_id) := by
          refine wellFormed_of_perm_ids h rfl ?_
          rw [List.perm_iff_count]
          intro a
          have := hpg a
          simp only [RSB.all, List.map_append, List.map_cons, List.map_nil, List.count_append,
            List.count_cons, List.count_nil, grant] at this ⊢
          omega
        dsimp only
        split
        · exact regrant_wellFormed _ hr1
        · exact hr1
      · split
        · exact h
        · have hr1 : WellFormed (RSB.mk (without id r.granted)
              (r.converting ++ [LKB.mk k.id k.node req.mode k.grmode])
              r.waiting r.next_id) := by
            refine wellFormed_of_perm_ids h rfl ?_
            rw [List.perm_iff_count]
            intro a
            have := hpg a
            simp only [RSB.all, List.map_append, List.map_cons, List.map_nil,
              List.count_append, List.count_cons, List.count_nil] at this ⊢
            omega
          exact hr1

theorem step_wellFormed (r : RSB) (op : Op) (h : WellFormed r) :
    WellFormed (step r op) := by
  cases op with
  | lock req => exact dlm_lock_wellFormed r req h
  | unlock id => exact dlm_unlock_wellFormed r id h

theorem foldl_step_wellFormed (ops : List Op) :
    ∀ r : RSB, WellFormed r → WellFormed (ops.foldl step r) := by
  induction ops with
  | nil => intro r h; exact h
  | cons op ops ih => intro r h; exact ih _ (step_wellFormed r op h)

theorem empty_wellFormed : WellFormed RSB.empty := by
  simp [WellFormed, RSB.empty, RSB.all]

theorem empty_consistent : Consistent RSB.empty.all := by
  simp [Consistent, RSB.empty, RSB.all]

/-- Scenario of section 8: EX is granted on the empty resource, a CR request
from another node waits, and the unlock of the EX lock grants the CR. -/
theorem scenario_unlock_grants_waiter :
    run [Op.lock ⟨1, Mode.EX, false, none⟩, Op.lock ⟨2, Mode.CR, false, none⟩]
      = { granted := [⟨0, 1, Mode.EX, some Mode.EX⟩], converting := [],
          waiting := [⟨1, 2, Mode.CR, none⟩], next_id := 2 } ∧
    run [Op.lock ⟨1, Mode.EX, false, none⟩, Op.lock ⟨2, Mode.CR, false, none⟩, Op.unlock 0]
      = { granted := [⟨1, 2, Mode.CR, some Mode.CR⟩], converting := [],
          waiting := [], next_id := 2 } := by
  constructor <;> decide

/-- A conversion that cannot be granted is queued and keeps its granted
mode; it is granted, ahead of a later new request, once the blocking lock is
released. -/
theorem scenario_convert_queued :
    run [Op.lock ⟨1, Mode.PR, false, none⟩, Op.lock ⟨2, Mode.PR, false, none⟩,
         Op.lock ⟨1, Mode.EX, false, some 0⟩, Op.lock ⟨3, Mode.CR, false, none⟩]
      = { granted := [⟨1, 2, Mode.PR, some Mode.PR⟩],
          converting := [⟨0, 1, Mode.EX, some Mode.PR⟩],
          waiting := [⟨2, 3, Mode.CR, none⟩], next_id := 3 } ∧
    run [Op.lock ⟨1, Mode.PR, false, none⟩, Op.lock ⟨2, Mode.PR, false, none⟩,
         Op.lock ⟨1, Mode.EX, false, some 0⟩, Op.lock ⟨3, Mode.CR, false, none⟩,
         Op.unlock 1]
      = { granted := [⟨0, 1, Mode.EX, some Mode.EX⟩], converting := [],
          waiting := [⟨2, 3, Mode.CR, none⟩], next_id := 3 } := by
  constructor <;> decide

/-- C4: in the state reached from the empty resource by any sequence of
lock, convert and unlock calls, every two LKBs on the resource (on whichever
queues) hold granted modes that are compatible under the matrix, and no two
queue entries are the same LKB (their ids differ). -/
theorem no_incompatible_grants (ops : List Op) :
    List.Pairwise (fun a b => a.compatibleWith b = true) (run ops).all ∧
    ((run ops).all.map LKB.id).Nodup :=
  ⟨foldl_step_consistent ops RSB.empty empty_consistent,
   (foldl_step_wellFormed ops RSB.empty empty_wellFormed).1⟩

/-- A request that can be granted immediately is accepted: the call returns
the id of the LKB and does not fail. -/
theorem grantable_now_accepted (r : RSB) (req : LockRequest)
    (h : grantable_now r req = true) :
    ∃ id, (dlm_lock r req).1 = Except.ok id := by
  unfold grantable_now at h
  unfold dlm_lock
  cases hc : req.convert with
  | none =>
    rw [hc] at h
    dsimp only at h ⊢
    exact ⟨r.next_id, by simp [h]⟩
  | some id =>
    rw [hc] at h
    dsimp only at h ⊢
    cases hf : r.granted.find? (fun k => decide (k.id = id)) with
    | none => simp [hf] at h
    | some k1 =>
      rw [hf] at h
      dsimp only
      exact ⟨id, by simp [(Bool.and_eq_true _ _ ▸ h).2]⟩

/-- C5: every try-lock request, new or conversion, that cannot be granted
immediately fails with `WouldBlock` and leaves the resource, hence its
granted, converting and waiting queues, unchanged: no queue entry is
created. -/
theorem try_lock_would_block (r : RSB) (req : LockRequest)
    (htry : req.try_lock = true) (hblocked : grantable_now r req = false) :
    dlm_lock r req = (Except.error Error.WouldBlock, r) ∧
    (dlm_lock r req).2.granted = r.granted ∧
    (dlm_lock r req).2.converting = r.converting ∧
    (dlm_lock r req).2.waiting = r.waiting := by
  have h : dlm_lock r req = (Except.error Error.WouldBlock, r) := by
    unfold grantable_now at hblocked
    unfold dlm_lock
    cases hc : req.convert with
    | none =>
      rw [hc] at hblocked
      dsimp only at hblocked ⊢
      simp [hblocked, htry]
    | some id =>
      rw [hc] at hblocked
      dsimp only at hblocked ⊢
      cases hf : r.granted.find? (fun k => decide (k.id = id)) with
      | none =>
        dsimp only
        simp [htry]
      | some k1 =>
        rw [hf] at hblocked
        dsimp only
        simp at hblocked
        simp [hblocked, htry]
  rw [h]
  exact ⟨rfl, rfl, rfl, rfl⟩

theorem try_lock_would_block_witness :
    (grantable_now (run [Op.lock ⟨1, Mode.CR, false, none⟩]) ⟨2, Mode.PW, true, none⟩ = false ∧
     dlm_lock (run [Op.lock ⟨1, Mode.CR, false, none⟩]) ⟨2, Mode.PW, true, none⟩
      = (Except.error Error.WouldBlock, run [Op.lock ⟨1, Mode.CR, false, none⟩])) ∧
    (grantable_now
        (run [Op.lock ⟨1, Mode.PR, false, none⟩, Op.lock ⟨2, Mode.PR, false, none⟩])
        ⟨1, Mode.EX, true, some 0⟩ = false ∧
     dlm_lock (run [Op.lock ⟨1, Mode.PR, false, none⟩, Op.lock ⟨2, Mode.PR, false, none⟩])
        ⟨1, Mode.EX, true, some 0⟩
      = (Except.error Error.WouldBlock,
         run [Op.lock ⟨1, Mode.PR, false, none⟩, Op.lock ⟨2, Mode.PR, false, none⟩])) ∧
    (grantable_now
        (run [Op.lock ⟨1, Mode.PR, false, none⟩, Op.lock ⟨2, Mode.PR, false, none⟩,
              Op.lock ⟨1, Mode.EX, false, some 0⟩])
        ⟨1, Mode.EX, true, some 0⟩ = false ∧
     dlm_lock
        (run [Op.lock ⟨1, Mode.PR, false, none⟩, Op.lock ⟨2, Mode.PR, false, none⟩,
              Op.lock ⟨1, Mode.EX, false, some 0⟩])
        ⟨1, Mode.EX, true, some 0⟩
      = (Except.error Error.WouldBlock,
         run [Op.lock ⟨1, Mode.PR, false, none⟩, Op.lock ⟨2, Mode.PR, false, none⟩,
              Op.lock ⟨1, Mode.EX, false, some 0⟩])) :=
  ⟨⟨by decide,
    (try_lock_would_block (run [Op.lock ⟨1, Mode.CR, false, none⟩])
      ⟨2, Mode.PW, true, none⟩ rfl (by decide)).1⟩,
   ⟨by decide,
    (try_lock_would_block
      (run [Op.lock ⟨1, Mode.PR, false, none⟩, Op.lock ⟨2, Mode.PR, false, none⟩])
      ⟨1, Mode.EX, true, some 0⟩ rfl (by decide)).1⟩,
   ⟨by decide,
    (try_lock_would_block
      (run [Op.lock ⟨1, Mode.PR, false, none⟩, Op.lock ⟨2, Mode.PR, false, none⟩,
            Op.lock ⟨1, Mode.EX, false, some 0⟩])
      ⟨1, Mode.EX, true, some 0⟩ rfl (by decide)).1⟩⟩

end DlmCore
